import Mathlib

/-!
Shallow embedding of the galaxi Download Engine
(src/rust/src/api/download.rs, src/rust/src/api/simple.rs,
src/rust/src/api/config.rs) and proofs about it.

Modelling conventions:
* machine integers (`u64`, `i64`) are `Nat` / `Int`;
* the f64 `percentage` field is modelled as `Rat` — the source only ever
  assigns it the exact values `0.0`, `100.0` and `(downloaded/total)*100.0`;
* the shared `active_downloads` HashMap guarded by a Mutex is an association
  list `Table`; each lock-acquire/mutate/release region of the source is one
  pure table operation;
* the concurrent interleaving of the streaming loop with external
  `pause_download` / `cancel_download` calls is an explicit event list: an
  event is either the arrival of a stream chunk (or a stream error) or an
  external pause/cancel landing between two chunk reads;
* filesystem state relevant to one transfer is `FileSt` (size of the staging
  `.part` file if it exists, and whether the final file exists);
* HTTP interaction is an `Env`: the HEAD outcome, the GET outcome, and the
  stream events.
-/

namespace Galaxi

/-- Download status, download.rs lines 26-33. -/
inductive DownloadStatus
  | Pending
  | Downloading
  | Paused
  | Completed
  | Failed
  | Cancelled
deriving DecidableEq, Repr

/-- Download progress record, download.rs lines 13-21.
`percentage` (f64 in the source) is modelled as `Rat`. -/
structure DownloadProgress where
  game_id : Int
  file_name : String
  downloaded : Nat
  total : Nat
  percentage : Rat
  status : DownloadStatus
  error : Option String
deriving DecidableEq, Repr

/-- The shared `active_downloads` map, keyed by game id. -/
abbrev Table := List (Int × DownloadProgress)

/-- `HashMap::insert`: replaces any existing entry for the key. -/
def tableInsert (t : Table) (k : Int) (v : DownloadProgress) : Table :=
  (k, v) :: t.filter (fun kv => kv.1 ≠ k)

/-- `HashMap::get` (cloned). -/
def tableGet (t : Table) (k : Int) : Option DownloadProgress :=
  (t.find? (fun kv => kv.1 == k)).map (fun kv => kv.2)

/-- `HashMap::get_mut` followed by a mutation: applies `f` to the entry for
`k` if present, otherwise leaves the table unchanged. -/
def tableUpdate (t : Table) (k : Int) (f : DownloadProgress → DownloadProgress) : Table :=
  t.map (fun kv => if kv.1 = k then (kv.1, f kv.2) else kv)

/-- config.rs line 74: `pub const MINIMUM_RESUME_SIZE: u64 = 20 * 1024 * 1024;` -/
def MINIMUM_RESUME_SIZE : Nat := 20 * 1024 * 1024

/-- The percentage expression used at download.rs lines 106 and 151-155:
`if total_size > 0 { (downloaded as f64 / total_size as f64) * 100.0 } else { 0.0 }`.
The division is guarded: it is never evaluated when `total = 0`. -/
def pct (downloaded total : Nat) : Rat :=
  if total > 0 then ((downloaded : Rat) / (total : Rat)) * 100 else 0

/-- `reqwest::StatusCode::is_success()`: 200 ≤ code ≤ 299. -/
def is_success (s : Nat) : Bool := 200 ≤ s && s ≤ 299

/-- Filesystem state of one transfer: size of the staging `.part` file when it
exists, and whether the final destination file exists. -/
structure FileSt where
  stagingSize : Option Nat
  finalExists : Bool
deriving DecidableEq, Repr

/-- One event observed by the streaming loop of `download_file`
(download.rs lines 142-162): either a chunk of the body arrives (`chunk`,
carrying its byte length), the stream yields an error (`chunkErr`), or an
external `pause_download` / `cancel_download` call lands on the shared table
between two chunk reads. -/
inductive Ev
  | chunk (sz : Nat)
  | chunkErr (msg : String)
  | cancel
  | pause
deriving DecidableEq, Repr

/-- External world of one `download_file` call: outcome of the HEAD probe
(`Except`: transport failure, or the parsed `content-length` when present and
parseable), outcome of the GET send (transport failure or HTTP status code),
and the interleaved stream/table events. -/
structure Env where
  headResult : Except String (Option Nat)
  getResult : Except String Nat
  events : List Ev
deriving Repr

/-- Observable trace of one `download_file` call: the staging file name it
derived, whether the HEAD and GET requests were sent, the `Range` header
offset if one was attached, the starting offset, how the staging file was
opened (`some true` = append, `some false` = truncate-create, `none` = never
opened), the staging size at the moment it was opened, and the stream/table
events left unconsumed when the call returned. -/
structure Trace where
  tempName : String
  headCalled : Bool
  getCalled : Bool
  rangeHeader : Option Nat
  startOffset : Nat
  openedAppend : Option Bool
  stagingAtOpen : Option Nat
  leftover : List Ev
deriving DecidableEq, Repr

/-- Index of the last `.` in a character list, if any. -/
def lastDotIdx : List Char → Option Nat
  | [] => none
  | c :: cs =>
    match lastDotIdx cs with
    | some i => some (i + 1)
    | none => if c = '.' then some 0 else none

/-- Rust `Path::with_extension` on a file name: the extension (the part after
the last `.`, where a `.` at position 0 marks a hidden file and is not an
extension separator) is replaced by `ext`; when the name has no extension,
`.ext` is appended. download.rs line 82 uses it with "part". -/
def rustWithExtension (f : String) (ext : String) : String :=
  match lastDotIdx f.toList with
  | some i => if 1 ≤ i then ((f.toList.take i).asString) ++ "." ++ ext else f ++ "." ++ ext
  | none => f ++ "." ++ ext

/-- download.rs line 82: `let temp_path = save_path.with_extension("part");`
(applied to the final path component). -/
def stagingName (f : String) : String := rustWithExtension f "part"

/-- The streaming loop of `download_file`, download.rs lines 142-172:
processes the event list, threading the local `downloaded` counter, the
shared table and the filesystem state. On stream exhaustion it performs the
finalize rename and marks the record Completed with percentage 100.0; on a
stream error or an observed Cancelled status it returns early. The fourth
component is the list of events left unconsumed. -/
def runLoop (gid : Int) (total : Nat) :
    List Ev → Nat → Table → FileSt → Except String Unit × Table × FileSt × List Ev
  | [], _, t, fs =>
    -- lines 164-172: fs::rename(temp, save); status = Completed; percentage = 100.0
    let _ := fs
    let t1 := tableUpdate t gid (fun p =>
      { p with status := DownloadStatus.Completed, percentage := 100 })
    (Except.ok (), t1, { stagingSize := none, finalExists := true }, [])
  | Ev.cancel :: evs, d, t, fs =>
    -- lines 184-189: cancel_download flips the status to Cancelled
    runLoop gid total evs d
      (tableUpdate t gid (fun p => { p with status := DownloadStatus.Cancelled })) fs
  | Ev.pause :: evs, d, t, fs =>
    -- lines 177-182: pause_download flips the status to Paused (not an abort signal)
    runLoop gid total evs d
      (tableUpdate t gid (fun p => { p with status := DownloadStatus.Paused })) fs
  | Ev.chunkErr e :: evs, _, t, fs =>
    -- line 143: chunk_result.map_err(..)? propagates the stream error
    (Except.error e, t, fs, evs)
  | Ev.chunk sz :: evs, d, t, fs =>
    -- lines 144-161: write chunk, bump counter, update record, check Cancelled
    let fs1 : FileSt := { fs with stagingSize := some (fs.stagingSize.getD 0 + sz) }
    let d1 := d + sz
    match tableGet t gid with
    | none => runLoop gid total evs d1 t fs1
    | some p =>
      let p1 := { p with downloaded := d1, percentage := pct d1 total }
      let t1 := tableUpdate t gid (fun _ => p1)
      if p.status = DownloadStatus.Cancelled then
        (Except.error "Download cancelled", t1, fs1, evs)
      else
        runLoop gid total evs d1 t1 fs1

/-- `DownloadManager::download_file`, download.rs lines 70-175.
Takes the environment, the file name of `save_path`, the game id, the resume
flag, the shared table and the filesystem state; returns the `Result`, the
final table, the final filesystem state and the observable trace. -/
def download_file (env : Env) (save_name : String) (gid : Int) (resume : Bool)
    (t : Table) (fs : FileSt) : Except String Unit × Table × FileSt × Trace :=
  let tempName := stagingName save_name
  -- lines 84-89: resume eligibility from the staging file size
  let downloaded : Nat :=
    match fs.stagingSize with
    | some sz => if resume ∧ MINIMUM_RESUME_SIZE ≤ sz then sz else 0
    | none => 0
  match env.headResult with
  | Except.error e =>
    -- line 91: `?` on the HEAD send propagates the failure
    (Except.error e, t, fs,
      { tempName := tempName, headCalled := true, getCalled := false,
        rangeHeader := none, startOffset := downloaded, openedAppend := none,
        stagingAtOpen := none, leftover := env.events })
  | Except.ok contentLength =>
    -- lines 92-97: missing/unparseable content-length becomes 0
    let total := contentLength.getD 0
    -- lines 99-114: insert the initial record
    let progress : DownloadProgress :=
      { game_id := gid, file_name := save_name, downloaded := downloaded,
        total := total, percentage := pct downloaded total,
        status := DownloadStatus.Downloading, error := none }
    let t1 := tableInsert t gid progress
    -- lines 116-119: Range header only when downloaded > 0
    let range : Option Nat := if 0 < downloaded then some downloaded else none
    match env.getResult with
    | Except.error e =>
      -- line 121: `?` on the GET send propagates the failure
      (Except.error e, t1, fs,
        { tempName := tempName, headCalled := true, getCalled := true,
          rangeHeader := range, startOffset := downloaded, openedAppend := none,
          stagingAtOpen := none, leftover := env.events })
    | Except.ok status =>
      -- lines 123-128: reject unless is_success() or 206
      if ¬ (is_success status = true) ∧ status ≠ 206 then
        (Except.error ("HTTP error: " ++ toString status), t1, fs,
          { tempName := tempName, headCalled := true, getCalled := true,
            rangeHeader := range, startOffset := downloaded, openedAppend := none,
            stagingAtOpen := none, leftover := env.events })
      else
        -- lines 130-137: open for append when resuming, else truncate-create
        let fs1 : FileSt :=
          if 0 < downloaded then fs else { fs with stagingSize := some 0 }
        let r := runLoop gid total env.events downloaded t1 fs1
        (r.1, r.2.1, r.2.2.1,
          { tempName := tempName, headCalled := true, getCalled := true,
            rangeHeader := range, startOffset := downloaded,
            openedAppend := some (0 < downloaded),
            stagingAtOpen := fs1.stagingSize, leftover := r.2.2.2 })

/-- `DownloadManager::pause_download`, download.rs lines 177-182. -/
def pause_download (t : Table) (gid : Int) : Table :=
  tableUpdate t gid (fun p => { p with status := DownloadStatus.Paused })

/-- `DownloadManager::cancel_download`, download.rs lines 184-189. -/
def cancel_download (t : Table) (gid : Int) : Table :=
  tableUpdate t gid (fun p => { p with status := DownloadStatus.Cancelled })

/-- `DownloadManager::get_progress`, download.rs lines 191-194. -/
def get_progress (t : Table) (gid : Int) : Option DownloadProgress :=
  tableGet t gid

/-- `DownloadManager::get_active_downloads`, download.rs lines 65-68. -/
def get_active_downloads (t : Table) : List DownloadProgress :=
  t.map (fun kv => kv.2)

/-- Number of Engine-level network calls recorded in a trace: the HEAD probe
and the GET request of one `download_file` run. (The catalog/auth collaborator
of simple.rs is outside the Engine per the spec's scope.) -/
def networkCalls (tr : Trace) : Nat :=
  (if tr.headCalled then 1 else 0) + (if tr.getCalled then 1 else 0)

/-- One constituent file of a `start_download` request: its save-path file
name, the HTTP environment its transfer would see, and its filesystem state
(`fs.finalExists` is `save_path.exists()`, the `already_downloaded` check of
simple.rs line 333). -/
structure ReqFile where
  save_name : String
  env : Env
  fs : FileSt
deriving Repr

/-- `start_download`, simple.rs lines 303-390, from the point where the
constituent files are known: compute the primary installer path (first file),
check whether every file already exists at its final path, and if so return
that path at once; otherwise run the spawned background loop, which skips
already-downloaded files and calls `download_file` with `resume = true` for
the rest, discarding each per-file `Result` (`let _ = ...`).
Returns the installer path, the final table, and the number of Engine network
calls performed. -/
def start_download (gid : Int) (files : List ReqFile) (t : Table) :
    Except String String × Table × Nat :=
  let installer_path := ((files.head?).map (fun f => f.save_name)).getD ""
  let all_downloaded := files.all (fun f => f.fs.finalExists)
  if all_downloaded then
    (Except.ok installer_path, t, 0)
  else
    let final := files.foldl (fun acc f =>
      if f.fs.finalExists then acc
      else
        let r := download_file f.env f.save_name gid true acc.1 f.fs
        (r.2.1, acc.2 + networkCalls r.2.2.2)) (t, 0)
    (Except.ok installer_path, final.1, final.2)

/-! ### MD5 (the `md5` crate's `md5::compute`, RFC 1321) and checksum
verification, download.rs lines 203-214. Files are byte lists. -/

/-- Truncate to 32 bits. -/
def w32 (x : Nat) : Nat := x % 4294967296

/-- 32-bit wrapping addition. -/
def wadd (a b : Nat) : Nat := (a + b) % 4294967296

/-- 32-bit complement. -/
def wnot (x : Nat) : Nat := 4294967295 - x % 4294967296

/-- 32-bit left rotation by `n` (for `n ≤ 32`). -/
def rotl (x n : Nat) : Nat :=
  x % 4294967296 * 2 ^ n % 4294967296 + x % 4294967296 / 2 ^ (32 - n)

/-- MD5 per-round left-rotation amounts. -/
def md5_s : List Nat :=
  [7, 12, 17, 22, 7, 12, 17, 22, 7, 12, 17, 22, 7, 12, 17, 22,
   5, 9, 14, 20, 5, 9, 14, 20, 5, 9, 14, 20, 5, 9, 14, 20,
   4, 11, 16, 23, 4, 11, 16, 23, 4, 11, 16, 23, 4, 11, 16, 23,
   6, 10, 15, 21, 6, 10, 15, 21, 6, 10, 15, 21, 6, 10, 15, 21]

/-- MD5 sine-derived constants `K[i] = ⌊2^32·|sin(i+1)|⌋`. -/
def md5_K : List Nat :=
  [0xd76aa478, 0xe8c7b756, 0x242070db, 0xc1bdceee,
   0xf57c0faf, 0x4787c62a, 0xa8304613, 0xfd469501,
   0x698098d8, 0x8b44f7af, 0xffff5bb1, 0x895cd7be,
   0x6b901122, 0xfd987193, 0xa679438e, 0x49b40821,
   0xf61e2562, 0xc040b340, 0x265e5a51, 0xe9b6c7aa,
   0xd62f105d, 0x02441453, 0xd8a1e681, 0xe7d3fbc8,
   0x21e1cde6, 0xc33707d6, 0xf4d50d87, 0x455a14ed,
   0xa9e3e905, 0xfcefa3f8, 0x676f02d9, 0x8d2a4c8a,
   0xfffa3942, 0x8771f681, 0x6d9d6122, 0xfde5380c,
   0xa4beea44, 0x4bdecfa9, 0xf6bb4b60, 0xbebfbc70,
   0x289b7ec6, 0xeaa127fa, 0xd4ef3085, 0x04881d05,
   0xd9d4d039, 0xe6db99e5, 0x1fa27cf8, 0xc4ac5665,
   0xf4292244, 0x432aff97, 0xab9423a7, 0xfc93a039,
   0x655b59c3, 0x8f0ccc92, 0xffeff47d, 0x85845dd1,
   0x6fa87e4f, 0xfe2ce6e0, 0xa3014314, 0x4e0811a1,
   0xf7537e82, 0xbd3af235, 0x2ad7d2bb, 0xeb86d391]

/-- One MD5 round on state `(a,b,c,d)` with message words `M`, round index `i`. -/
def md5round (M : List Nat) (st : Nat × Nat × Nat × Nat) (i : Nat) : Nat × Nat × Nat × Nat :=
  let a := st.1
  let b := st.2.1
  let c := st.2.2.1
  let d := st.2.2.2
  let fg : Nat × Nat :=
    if i < 16 then ((b.land c).lor ((wnot b).land d), i)
    else if i < 32 then ((d.land b).lor ((wnot d).land c), (5 * i + 1) % 16)
    else if i < 48 then ((b.xor c).xor d, (3 * i + 5) % 16)
    else (c.xor (b.lor (wnot d)), 7 * i % 16)
  let tmp := wadd (wadd (wadd a fg.1) (md5_K.getD i 0)) (M.getD fg.2 0)
  (d, wadd b (rotl tmp (md5_s.getD i 0)), b, c)

/-- A 64-byte block as 16 little-endian 32-bit words. -/
def words16 (blk : List Nat) : List Nat :=
  (List.range 16).map (fun j =>
    blk.getD (4 * j) 0 + 256 * blk.getD (4 * j + 1) 0 +
    65536 * blk.getD (4 * j + 2) 0 + 16777216 * blk.getD (4 * j + 3) 0)

/-- Process one 64-byte block. -/
def md5block (st : Nat × Nat × Nat × Nat) (blk : List Nat) : Nat × Nat × Nat × Nat :=
  let M := words16 blk
  let r := (List.range 64).foldl (fun s i => md5round M s i) st
  (wadd st.1 r.1, wadd st.2.1 r.2.1, wadd st.2.2.1 r.2.2.1, wadd st.2.2.2 r.2.2.2)

/-- Split a byte list into 64-byte blocks (structural recursion on a fuel
bounded by the list length; each step consumes at least one element). -/
def chunk64F : Nat → List Nat → List (List Nat)
  | 0, _ => []
  | _, [] => []
  | fuel + 1, a :: l => ((a :: l).take 64) :: chunk64F fuel ((a :: l).drop 64)

/-- Split a byte list into 64-byte blocks. -/
def chunk64 (l : List Nat) : List (List Nat) := chunk64F l.length l

/-- MD5 padding: `0x80`, zeros to 56 mod 64, then the bit length as 8
little-endian bytes. -/
def md5pad (msg : List Nat) : List Nat :=
  let len := msg.length
  let zeros := (119 - len % 64) % 64
  let bitLen := len * 8 % 2 ^ 64
  msg ++ [128] ++ List.replicate zeros 0 ++
    (List.range 8).map (fun i => bitLen / 2 ^ (8 * i) % 256)

/-- MD5 initial state. -/
def md5init : Nat × Nat × Nat × Nat := (0x67452301, 0xefcdab89, 0x98badcfe, 0x10325476)

/-- Lowercase hex digit for `n < 16`: digits map to codes 48-57, the letters
a-f to codes 97-102 (87 + n), as Rust's `{:x}` formatter produces. -/
def hexDigit (n : Nat) : Char :=
  if n < 10 then Char.ofNat (48 + n)
  else if n < 16 then Char.ofNat (87 + n)
  else '0'

/-- Two lowercase hex characters of a byte. -/
def byteHexChars (b : Nat) : List Char := [hexDigit (b / 16 % 16), hexDigit (b % 16)]

/-- A 32-bit word as 4 little-endian bytes. -/
def wordLEBytes (w : Nat) : List Nat :=
  [w % 256, w / 256 % 256, w / 65536 % 256, w / 16777216 % 256]

/-- `format!("{:x}", md5::compute(bytes))`: the 32-character lowercase hex
MD5 digest of a byte list. -/
def md5hex (msg : List Nat) : String :=
  let r := (chunk64 (md5pad msg)).foldl md5block md5init
  String.mk (((wordLEBytes r.1 ++ wordLEBytes r.2.1 ++
    wordLEBytes r.2.2.1 ++ wordLEBytes r.2.2.2).map byteHexChars).flatten)

/-- ASCII lowercasing of one character (Rust `str::to_lowercase`, which
coincides with ASCII lowering on all characters an MD5 hex digest can
contain). -/
def asciiToLower (c : Char) : Char :=
  if 65 ≤ c.toNat ∧ c.toNat ≤ 90 then Char.ofNat (c.toNat + 32) else c

/-- ASCII uppercasing of one character (Rust `str::to_uppercase` on ASCII). -/
def asciiToUpper (c : Char) : Char :=
  if 97 ≤ c.toNat ∧ c.toNat ≤ 122 then Char.ofNat (c.toNat - 32) else c

/-- Rust `str::to_lowercase` (ASCII fragment). -/
def rustToLowercase (s : String) : String := String.mk (s.toList.map asciiToLower)

/-- Rust `str::to_uppercase` (ASCII fragment). -/
def rustToUppercase (s : String) : String := String.mk (s.toList.map asciiToUpper)

/-- `calculate_md5`, download.rs lines 204-208: read the file (`none` models
an `fs::read` failure) and format its MD5 digest in lowercase hex. -/
def calculate_md5 (file : Option (List Nat)) : Except String String :=
  match file with
  | none => Except.error "io error"
  | some bytes => Except.ok (md5hex bytes)

/-- `verify_checksum`, download.rs lines 211-214:
`Ok(calculated.to_lowercase() == expected_md5.to_lowercase())`. -/
def verify_checksum (file : Option (List Nat)) (expected_md5 : String) : Except String Bool :=
  match calculate_md5 file with
  | Except.error e => Except.error e
  | Except.ok calculated =>
    Except.ok (rustToLowercase calculated == rustToLowercase expected_md5)

/-- State-trace version of `runLoop`: runs the same per-event transitions and
returns the intermediate `(downloaded, table, fileSt)` state after consuming
the given events, or `none` if the loop would have returned early (stream
error, or Cancelled observed at a chunk). `runSteps_append` proves the
correspondence with `runLoop`. -/
def runSteps (gid : Int) (total : Nat) :
    List Ev → Nat → Table → FileSt → Option (Nat × Table × FileSt)
  | [], d, t, fs => some (d, t, fs)
  | Ev.cancel :: evs, d, t, fs =>
    runSteps gid total evs d
      (tableUpdate t gid (fun p => { p with status := DownloadStatus.Cancelled })) fs
  | Ev.pause :: evs, d, t, fs =>
    runSteps gid total evs d
      (tableUpdate t gid (fun p => { p with status := DownloadStatus.Paused })) fs
  | Ev.chunkErr _ :: _, _, _, _ => none
  | Ev.chunk sz :: evs, d, t, fs =>
    let fs1 : FileSt := { fs with stagingSize := some (fs.stagingSize.getD 0 + sz) }
    let d1 := d + sz
    match tableGet t gid with
    | none => runSteps gid total evs d1 t fs1
    | some p =>
      let p1 := { p with downloaded := d1, percentage := pct d1 total }
      let t1 := tableUpdate t gid (fun _ => p1)
      if p.status = DownloadStatus.Cancelled then none
      else runSteps gid total evs d1 t1 fs1

/-- Every record of the table has `error = None`. -/
abbrev errFree (t : Table) : Prop := ∀ kv ∈ t, (kv.2).error = none

/-- Events that neither cancel the transfer nor fail the stream. -/
def quietEv : Ev → Bool
  | Ev.cancel => false
  | Ev.chunkErr _ => false
  | Ev.chunk _ => true
  | Ev.pause => true

/-! ### Helper lemmas -/

lemma tableGet_insert (t : Table) (k : Int) (v : DownloadProgress) :
    tableGet (tableInsert t k v) k = some v := by
  simp [tableGet, tableInsert, List.find?]

lemma tableGet_update (t : Table) (k : Int) (f : DownloadProgress → DownloadProgress) :
    tableGet (tableUpdate t k f) k = (tableGet t k).map f := by
  induction t with
  | nil => rfl
  | cons kv rest ih =>
    rcases kv with ⟨a, p⟩
    by_cases h : a = k
    · subst h
      simp [tableUpdate, tableGet, List.find?]
    · have hb : (a == k) = false := by simpa using h
      simp only [tableUpdate, List.map_cons, if_neg h, tableGet, List.find?, hb] at ih ⊢
      exact ih

lemma errFree_insert {t : Table} (h : errFree t) {v : DownloadProgress}
    (hv : v.error = none) (k : Int) : errFree (tableInsert t k v) := by
  intro kv hkv
  rcases List.mem_cons.mp hkv with hkv | hkv
  · rw [hkv]
    exact hv
  · exact h kv (List.mem_of_mem_filter hkv)

lemma errFree_update {t : Table} (h : errFree t) {f : DownloadProgress → DownloadProgress}
    (hf : ∀ p, p.error = none → (f p).error = none) (k : Int) :
    errFree (tableUpdate t k f) := by
  intro kv hkv
  rcases List.mem_map.mp hkv with ⟨kv0, hkv0, heq⟩
  by_cases hk : kv0.1 = k
  · rw [← heq]
    simp only [if_pos hk]
    exact hf kv0.2 (h kv0 hkv0)
  · rw [← heq]
    simp only [if_neg hk]
    exact h kv0 hkv0

lemma errFree_get {t : Table} (h : errFree t) {k : Int} {p : DownloadProgress}
    (hg : tableGet t k = some p) : p.error = none := by
  unfold tableGet at hg
  cases hf : t.find? (fun kv => kv.1 == k) with
  | none => rw [hf] at hg; cases hg
  | some kv =>
    rw [hf] at hg
    have hm := List.mem_of_find?_eq_some hf
    have : kv.2 = p := by simpa using hg
    rw [← this]
    exact h kv hm

lemma runLoop_chunk_none {gid : Int} {total : Nat} {t : Table}
    (hg : tableGet t gid = none) (sz : Nat) (evs : List Ev) (d : Nat) (fs : FileSt) :
    runLoop gid total (Ev.chunk sz :: evs) d t fs =
      runLoop gid total evs (d + sz) t
        { fs with stagingSize := some (fs.stagingSize.getD 0 + sz) } := by
  simp only [runLoop, hg]

lemma runLoop_chunk_some {gid : Int} {total : Nat} {t : Table} {p : DownloadProgress}
    (hg : tableGet t gid = some p) (sz : Nat) (evs : List Ev) (d : Nat) (fs : FileSt) :
    runLoop gid total (Ev.chunk sz :: evs) d t fs =
      (if p.status = DownloadStatus.Cancelled then
        (Except.error "Download cancelled",
          tableUpdate t gid
            (fun _ => { p with downloaded := d + sz, percentage := pct (d + sz) total }),
          { fs with stagingSize := some (fs.stagingSize.getD 0 + sz) }, evs)
      else
        runLoop gid total evs (d + sz)
          (tableUpdate t gid
            (fun _ => { p with downloaded := d + sz, percentage := pct (d + sz) total }))
          { fs with stagingSize := some (fs.stagingSize.getD 0 + sz) }) := by
  simp only [runLoop, hg]

lemma runSteps_chunk_none {gid : Int} {total : Nat} {t : Table}
    (hg : tableGet t gid = none) (sz : Nat) (evs : List Ev) (d : Nat) (fs : FileSt) :
    runSteps gid total (Ev.chunk sz :: evs) d t fs =
      runSteps gid total evs (d + sz) t
        { fs with stagingSize := some (fs.stagingSize.getD 0 + sz) } := by
  simp only [runSteps, hg]

lemma runSteps_chunk_some {gid : Int} {total : Nat} {t : Table} {p : DownloadProgress}
    (hg : tableGet t gid = some p) (sz : Nat) (evs : List Ev) (d : Nat) (fs : FileSt) :
    runSteps gid total (Ev.chunk sz :: evs) d t fs =
      (if p.status = DownloadStatus.Cancelled then none
      else
        runSteps gid total evs (d + sz)
          (tableUpdate t gid
            (fun _ => { p with downloaded := d + sz, percentage := pct (d + sz) total }))
          { fs with stagingSize := some (fs.stagingSize.getD 0 + sz) }) := by
  simp only [runSteps, hg]

lemma errFree_runLoop (gid : Int) (total : Nat) :
    ∀ (evs : List Ev) (d : Nat) (t : Table) (fs : FileSt), errFree t →
      errFree (runLoop gid total evs d t fs).2.1 := by
  intro evs
  induction evs with
  | nil =>
    intro d t fs h
    have h1 : errFree (tableUpdate t gid (fun p =>
        { p with status := DownloadStatus.Completed, percentage := 100 })) :=
      by refine errFree_update h ?_ gid; intro p hp; exact hp
    exact h1
  | cons e evs ih =>
    intro d t fs h
    cases e with
    | cancel =>
      have h1 : errFree (tableUpdate t gid (fun p =>
          { p with status := DownloadStatus.Cancelled })) :=
        by refine errFree_update h ?_ gid; intro p hp; exact hp
      exact ih d _ fs h1
    | pause =>
      have h1 : errFree (tableUpdate t gid (fun p =>
          { p with status := DownloadStatus.Paused })) :=
        by refine errFree_update h ?_ gid; intro p hp; exact hp
      exact ih d _ fs h1
    | chunkErr msg => exact h
    | chunk sz =>
      cases hg : tableGet t gid with
      | none =>
        rw [runLoop_chunk_none hg]
        exact ih _ t _ h
      | some p =>
        rw [runLoop_chunk_some hg]
        have hpe : p.error = none := errFree_get h hg
        have h1 : errFree (tableUpdate t gid
            (fun _ => { p with downloaded := d + sz, percentage := pct (d + sz) total })) :=
          by refine errFree_update h ?_ gid; intro q hq; exact hpe
        by_cases hc : p.status = DownloadStatus.Cancelled
        · simp only [if_pos hc]
          exact h1
        · simp only [if_neg hc]
          exact ih _ _ _ h1

lemma runSteps_append (gid : Int) (total : Nat) :
    ∀ (evs1 evs2 : List Ev) (d : Nat) (t : Table) (fs : FileSt)
      (res : Nat × Table × FileSt),
      runSteps gid total evs1 d t fs = some res →
      runLoop gid total (evs1 ++ evs2) d t fs =
        runLoop gid total evs2 res.1 res.2.1 res.2.2 := by
  intro evs1
  induction evs1 with
  | nil =>
    intro evs2 d t fs res h
    simp only [runSteps, Option.some_inj] at h
    rw [← h]
    rfl
  | cons e evs ih =>
    intro evs2 d t fs res h
    cases e with
    | cancel =>
      simp only [runSteps] at h
      simp only [List.cons_append, runLoop]
      exact ih evs2 d _ fs res h
    | pause =>
      simp only [runSteps] at h
      simp only [List.cons_append, runLoop]
      exact ih evs2 d _ fs res h
    | chunkErr msg =>
      simp only [runSteps] at h
      cases h
    | chunk sz =>
      cases hg : tableGet t gid with
      | none =>
        rw [runSteps_chunk_none hg] at h
        rw [List.cons_append, runLoop_chunk_none hg]
        exact ih evs2 _ t _ res h
      | some p =>
        rw [runSteps_chunk_some hg] at h
        rw [List.cons_append, runLoop_chunk_some hg]
        by_cases hc : p.status = DownloadStatus.Cancelled
        · rw [if_pos hc] at h
          cases h
        · rw [if_neg hc] at h
          rw [if_neg hc]
          exact ih evs2 _ _ _ res h

lemma runSteps_quiet (gid : Int) (total : Nat) :
    ∀ (evs : List Ev) (d : Nat) (t : Table) (fs : FileSt) (p : DownloadProgress),
      (∀ e ∈ evs, quietEv e = true) →
      tableGet t gid = some p → p.status ≠ DownloadStatus.Cancelled →
      fs.stagingSize.isSome = true →
      ∃ d' t' fs' p',
        runSteps gid total evs d t fs = some (d', t', fs') ∧
        tableGet t' gid = some p' ∧ p'.status ≠ DownloadStatus.Cancelled ∧
        fs'.stagingSize.isSome = true ∧ fs'.finalExists = fs.finalExists := by
  intro evs
  induction evs with
  | nil =>
    intro d t fs p _ hg hc hs
    exact ⟨d, t, fs, p, rfl, hg, hc, hs, rfl⟩
  | cons e evs ih =>
    intro d t fs p hq hg hc hs
    cases e with
    | cancel =>
      have := hq _ (List.mem_cons_self _ _)
      simp [quietEv] at this
    | chunkErr m =>
      have := hq _ (List.mem_cons_self _ _)
      simp [quietEv] at this
    | pause =>
      have hg' : tableGet
          (tableUpdate t gid (fun q => { q with status := DownloadStatus.Paused })) gid =
          some { p with status := DownloadStatus.Paused } := by
        rw [tableGet_update, hg]
        rfl
      obtain ⟨d', t', fs', p', h1, h2, h3, h4, h5⟩ :=
        ih d _ fs _ (fun e he => hq e (List.mem_cons_of_mem _ he)) hg' (by simp) hs
      refine ⟨d', t', fs', p', ?_, h2, h3, h4, h5⟩
      simp only [runSteps]
      exact h1
    | chunk sz =>
      have hg' : tableGet (tableUpdate t gid
          (fun _ => { p with downloaded := d + sz, percentage := pct (d + sz) total })) gid =
          some { p with downloaded := d + sz, percentage := pct (d + sz) total } := by
        rw [tableGet_update, hg]
        rfl
      obtain ⟨d', t', fs', p', h1, h2, h3, h4, h5⟩ :=
        ih (d + sz) _ { fs with stagingSize := some (fs.stagingSize.getD 0 + sz) } _
          (fun e he => hq e (List.mem_cons_of_mem _ he)) hg' hc (by simp)
      refine ⟨d', t', fs', p', ?_, h2, h3, h4, h5⟩
      rw [runSteps_chunk_some hg, if_neg hc]
      exact h1

lemma runSteps_chunks (gid : Int) :
    ∀ (evs : List Ev) (d : Nat) (t : Table) (fs : FileSt) (p : DownloadProgress),
      (∀ e ∈ evs, ∃ n, e = Ev.chunk n) →
      tableGet t gid = some p → p.total = 0 → p.percentage = 0 →
      p.status = DownloadStatus.Downloading →
      ∃ d' t' fs' p',
        runSteps gid 0 evs d t fs = some (d', t', fs') ∧
        tableGet t' gid = some p' ∧ p'.total = 0 ∧ p'.percentage = 0 ∧
        p'.status = DownloadStatus.Downloading := by
  intro evs
  induction evs with
  | nil =>
    intro d t fs p _ hg ht hp hst
    exact ⟨d, t, fs, p, rfl, hg, ht, hp, hst⟩
  | cons e evs ih =>
    intro d t fs p hq hg ht hp hst
    obtain ⟨n, hn⟩ := hq _ (List.mem_cons_self _ _)
    subst hn
    have hc : p.status ≠ DownloadStatus.Cancelled := by
      rw [hst]
      simp
    have hg' : tableGet (tableUpdate t gid
        (fun _ => { p with downloaded := d + n, percentage := pct (d + n) 0 })) gid =
        some { p with downloaded := d + n, percentage := pct (d + n) 0 } := by
      rw [tableGet_update, hg]
      rfl
    obtain ⟨d', t', fs', p', h1, h2, h3, h4, h5⟩ :=
      ih (d + n) _ { fs with stagingSize := some (fs.stagingSize.getD 0 + n) } _
        (fun e he => hq e (List.mem_cons_of_mem _ he)) hg' ht (by simp [pct]) hst
    refine ⟨d', t', fs', p', ?_, h2, h3, h4, h5⟩
    rw [runSteps_chunk_some hg, if_neg hc]
    exact h1

lemma errFree_download (env : Env) (save : String) (gid : Int) (resume : Bool)
    (t : Table) (fs : FileSt) (h : errFree t) :
    errFree (download_file env save gid resume t fs).2.1 := by
  rcases env with ⟨hr, gr, evs⟩
  cases hr with
  | error e => exact h
  | ok cl =>
    cases gr with
    | error e => exact errFree_insert h rfl gid
    | ok s =>
      simp only [download_file]
      by_cases hs : ¬ (is_success s = true) ∧ s ≠ 206
      · rw [if_pos hs]
        exact errFree_insert h rfl gid
      · rw [if_neg hs]
        exact errFree_runLoop gid _ evs _ _ _ (errFree_insert h rfl gid)

lemma errFree_foldl (gid : Int) :
    ∀ (files : List ReqFile) (t : Table) (n : Nat), errFree t →
      errFree ((files.foldl (fun acc f =>
        if f.fs.finalExists then acc
        else
          let r := download_file f.env f.save_name gid true acc.1 f.fs
          (r.2.1, acc.2 + networkCalls r.2.2.2)) (t, n)).1) := by
  intro files
  induction files with
  | nil =>
    intro t n h
    exact h
  | cons f rest ih =>
    intro t n h
    simp only [List.foldl_cons]
    by_cases hf : f.fs.finalExists = true
    · rw [if_pos hf]
      exact ih t n h
    · rw [if_neg hf]
      exact ih _ _ (errFree_download _ _ _ _ _ _ h)

lemma errFree_start (gid : Int) (files : List ReqFile) (t : Table) (h : errFree t) :
    errFree (start_download gid files t).2.1 := by
  unfold start_download
  by_cases hall : files.all (fun f => f.fs.finalExists) = true
  · rw [if_pos hall]
    exact h
  · rw [if_neg hall]
    exact errFree_foldl gid files t 0 h

lemma download_file_accept (cl : Option Nat) (s : Nat) (evs : List Ev) (save : String)
    (gid : Int) (resume : Bool) (t : Table) (fs : FileSt)
    (hs : ¬ (¬ (is_success s = true) ∧ s ≠ 206)) :
    download_file ⟨Except.ok cl, Except.ok s, evs⟩ save gid resume t fs =
      (let downloaded : Nat :=
        match fs.stagingSize with
        | some sz => if resume ∧ MINIMUM_RESUME_SIZE ≤ sz then sz else 0
        | none => 0
       let total := cl.getD 0
       let t1 := tableInsert t gid
         { game_id := gid, file_name := save, downloaded := downloaded, total := total,
           percentage := pct downloaded total, status := DownloadStatus.Downloading,
           error := none }
       let fs1 := if 0 < downloaded then fs else { fs with stagingSize := some 0 }
       let r := runLoop gid total evs downloaded t1 fs1
       (r.1, r.2.1, r.2.2.1,
        { tempName := stagingName save, headCalled := true, getCalled := true,
          rangeHeader := if 0 < downloaded then some downloaded else none,
          startOffset := downloaded, openedAppend := some (decide (0 < downloaded)),
          stagingAtOpen := fs1.stagingSize, leftover := r.2.2.2 })) := by
  simp only [download_file]
  rw [if_neg hs]

/-! ### Claim theorems -/

/-- C4: when every constituent file of a `start_download` request already
exists at its final (non-staging) path, the call returns the primary
installer path (the first file's path) synchronously, leaves the Progress
Table untouched, and performs zero Engine network calls — `download_file` is
never invoked, so no HEAD or GET is sent. Since this holds of every such
invocation, invoking it a second time for the same satisfied request again
performs zero network calls. (The catalog lookups in simple.rs belong to the
catalog/auth collaborator, which the spec scopes out of the Engine.) -/
theorem C4_skip_when_all_exist (gid : Int) (files : List ReqFile) (t : Table)
    (h : ∀ f ∈ files, f.fs.finalExists = true) :
    start_download gid files t =
      (Except.ok (((files.head?).map (fun f => f.save_name)).getD ""), t, 0) := by
  unfold start_download
  have hall : files.all (fun f => f.fs.finalExists) = true := by
    rw [List.all_eq_true]
    exact h
  rw [if_pos hall]

/-- C4 witness: a concrete two-file request whose files both already exist. -/
theorem C4_witness :
    start_download 9
      [⟨"setup.exe", ⟨Except.ok none, Except.ok 200, []⟩, ⟨none, true⟩⟩,
       ⟨"patch.bin", ⟨Except.ok none, Except.ok 200, []⟩, ⟨none, true⟩⟩] [] =
      (Except.ok "setup.exe", [], 0) :=
  C4_skip_when_all_exist 9
    [⟨"setup.exe", ⟨Except.ok none, Except.ok 200, []⟩, ⟨none, true⟩⟩,
     ⟨"patch.bin", ⟨Except.ok none, Except.ok 200, []⟩, ⟨none, true⟩⟩] []
    (by decide)

/-- C2: the starting offset of `download_file` equals the existing staging
file's size exactly when `resume` is true and that size is at least
MINIMUM_RESUME_SIZE (20 MiB); in that case a `Range: bytes=offset-` header is
attached to the GET and the staging file is opened in append mode at its
existing size. In every other case (resume false, no staging file, or size
below the threshold) the offset is 0, no Range header is sent, and the
staging file is truncate-created at size 0, overwriting any partial file. -/
theorem C2_resume_threshold (env : Env) (save : String) (gid : Int) (resume : Bool)
    (t : Table) (fs : FileSt) (cl : Option Nat) (s : Nat)
    (hh : env.headResult = Except.ok cl) (hg : env.getResult = Except.ok s)
    (hs : is_success s = true ∨ s = 206) :
    (∀ sz, fs.stagingSize = some sz → resume = true → MINIMUM_RESUME_SIZE ≤ sz →
      (download_file env save gid resume t fs).2.2.2.startOffset = sz ∧
      (download_file env save gid resume t fs).2.2.2.rangeHeader = some sz ∧
      (download_file env save gid resume t fs).2.2.2.openedAppend = some true ∧
      (download_file env save gid resume t fs).2.2.2.stagingAtOpen = some sz) ∧
    ((resume = false ∨ fs.stagingSize = none ∨
        (∃ sz, fs.stagingSize = some sz ∧ sz < MINIMUM_RESUME_SIZE)) →
      (download_file env save gid resume t fs).2.2.2.startOffset = 0 ∧
      (download_file env save gid resume t fs).2.2.2.rangeHeader = none ∧
      (download_file env save gid resume t fs).2.2.2.openedAppend = some false ∧
      (download_file env save gid resume t fs).2.2.2.stagingAtOpen = some 0) := by
  rcases env with ⟨hr, gr, evs⟩
  simp only at hh hg
  subst hh
  subst hg
  have hcond : ¬ (¬ (is_success s = true) ∧ s ≠ 206) := by
    rcases hs with hs | hs
    · exact fun hx => hx.1 hs
    · exact fun hx => hx.2 hs
  rw [download_file_accept cl s evs save gid resume t fs hcond]
  rcases fs with ⟨ss, fe⟩
  constructor
  · intro sz hsz hres hmin
    simp only at hsz
    subst hsz
    subst hres
    have hpos : 0 < sz := by
      have h20 : (0 : Nat) < MINIMUM_RESUME_SIZE := by norm_num [MINIMUM_RESUME_SIZE]
      omega
    simp [hmin, hpos]
  · intro hcase
    have hres0 : resume = false ∨ ss = none ∨
        ∃ sz, ss = some sz ∧ sz < MINIMUM_RESUME_SIZE := by
      simpa using hcase
    cases ss with
    | none => simp
    | some sz =>
      have hno : ¬ (resume = true ∧ MINIMUM_RESUME_SIZE ≤ sz) := by
        rcases hres0 with h | h | ⟨sz', hsz', hlt⟩
        · rintro ⟨ha, _⟩
          rw [h] at ha
          cases ha
        · cases h
        · rintro ⟨_, hb⟩
          injection hsz' with hsz''
          omega
      simp [hno]

/-- C2 witness: a staging file of exactly 20 MiB with `resume = true`
engages resume (offset, Range header, append mode), while a 1-byte staging
file restarts from zero with truncation. -/
theorem C2_witness :
    ((download_file ⟨Except.ok none, Except.ok 206, []⟩ "a.bin" 1 true []
        ⟨some 20971520, false⟩).2.2.2.startOffset = 20971520 ∧
      (download_file ⟨Except.ok none, Except.ok 206, []⟩ "a.bin" 1 true []
        ⟨some 20971520, false⟩).2.2.2.rangeHeader = some 20971520 ∧
      (download_file ⟨Except.ok none, Except.ok 206, []⟩ "a.bin" 1 true []
        ⟨some 20971520, false⟩).2.2.2.openedAppend = some true ∧
      (download_file ⟨Except.ok none, Except.ok 206, []⟩ "a.bin" 1 true []
        ⟨some 20971520, false⟩).2.2.2.stagingAtOpen = some 20971520) ∧
    ((download_file ⟨Except.ok none, Except.ok 200, []⟩ "b.bin" 2 true []
        ⟨some 1, false⟩).2.2.2.startOffset = 0 ∧
      (download_file ⟨Except.ok none, Except.ok 200, []⟩ "b.bin" 2 true []
        ⟨some 1, false⟩).2.2.2.rangeHeader = none ∧
      (download_file ⟨Except.ok none, Except.ok 200, []⟩ "b.bin" 2 true []
        ⟨some 1, false⟩).2.2.2.openedAppend = some false ∧
      (download_file ⟨Except.ok none, Except.ok 200, []⟩ "b.bin" 2 true []
        ⟨some 1, false⟩).2.2.2.stagingAtOpen = some 0) :=
  ⟨(C2_resume_threshold ⟨Except.ok none, Except.ok 206, []⟩ "a.bin" 1 true []
      ⟨some 20971520, false⟩ none 206 rfl rfl (Or.inr rfl)).1 20971520 rfl rfl
      (by norm_num [MINIMUM_RESUME_SIZE]),
    (C2_resume_threshold ⟨Except.ok none, Except.ok 200, []⟩ "b.bin" 2 true []
      ⟨some 1, false⟩ none 200 rfl rfl (Or.inl rfl)).2
      (Or.inr (Or.inr ⟨1, rfl, by norm_num [MINIMUM_RESUME_SIZE]⟩))⟩

/-- C8 counterexample: HTTP status 204 is neither 200 nor 206, yet the GET
phase accepts it (`status().is_success()` covers all of 2xx) — the transfer
proceeds and succeeds, where the claim requires a failure with an HTTP
error. -/
theorem C8_counterexample :
    (download_file ⟨Except.ok none, Except.ok 204, []⟩ "a.bin" 1 false []
      ⟨none, false⟩).1 = Except.ok () ∧ (204 : Nat) ≠ 200 ∧ (204 : Nat) ≠ 206 :=
  ⟨rfl, by decide, by decide⟩

/-- C8 (amended): the GET phase succeeds exactly for the 2xx response
statuses 200-299 (`is_success()`, which in particular covers 200 and 206);
for every status outside 200-299 the transfer fails with an HTTP error
before the staging file is opened or modified. -/
theorem C8_http_status (env : Env) (save : String) (gid : Int) (resume : Bool)
    (t : Table) (fs : FileSt) (cl : Option Nat) (s : Nat)
    (hh : env.headResult = Except.ok cl) (hg : env.getResult = Except.ok s) :
    ((200 ≤ s ∧ s ≤ 299) →
      (download_file env save gid resume t fs).2.2.2.openedAppend.isSome = true) ∧
    (¬ (200 ≤ s ∧ s ≤ 299) →
      (download_file env save gid resume t fs).1 =
        Except.error ("HTTP error: " ++ toString s) ∧
      (download_file env save gid resume t fs).2.2.1 = fs ∧
      (download_file env save gid resume t fs).2.2.2.openedAppend = none) := by
  rcases env with ⟨hr, gr, evs⟩
  simp only at hh hg
  subst hh
  subst hg
  constructor
  · intro hin
    have hacc : ¬ (¬ (is_success s = true) ∧ s ≠ 206) := by
      intro hx
      apply hx.1
      simp only [is_success, Bool.and_eq_true, decide_eq_true_eq]
      omega
    rw [download_file_accept cl s evs save gid resume t fs hacc]
    rfl
  · intro hout
    have hrej : ¬ (is_success s = true) ∧ s ≠ 206 := by
      constructor
      · simp only [is_success, Bool.and_eq_true, decide_eq_true_eq]
        omega
      · intro h206
        subst h206
        exact hout (by omega)
    simp only [download_file]
    rw [if_pos hrej]
    exact ⟨rfl, rfl, rfl⟩

/-- C8 witness: status 200 is accepted and the staging file opened; status
404 is rejected with an HTTP error and the filesystem untouched. -/
theorem C8_witness :
    ((download_file ⟨Except.ok none, Except.ok 200, []⟩ "a.bin" 1 false []
      ⟨none, false⟩).2.2.2.openedAppend.isSome = true) ∧
    ((download_file ⟨Except.ok none, Except.ok 404, []⟩ "b.bin" 2 false []
      ⟨none, false⟩).1 = Except.error ("HTTP error: " ++ toString 404) ∧
     (download_file ⟨Except.ok none, Except.ok 404, []⟩ "b.bin" 2 false []
      ⟨none, false⟩).2.2.1 = (⟨none, false⟩ : FileSt) ∧
     (download_file ⟨Except.ok none, Except.ok 404, []⟩ "b.bin" 2 false []
      ⟨none, false⟩).2.2.2.openedAppend = none) :=
  ⟨(C8_http_status ⟨Except.ok none, Except.ok 200, []⟩ "a.bin" 1 false []
      ⟨none, false⟩ none 200 rfl rfl).1 (by decide),
   (C8_http_status ⟨Except.ok none, Except.ok 404, []⟩ "b.bin" 2 false []
      ⟨none, false⟩ none 404 rfl rfl).2 (by decide)⟩

/-- C6 counterexample: a HEAD transport failure makes `download_file` return
that error without ever issuing the GET — it aborts the transfer instead of
degrading to an unknown-size download. -/
theorem C6_counterexample :
    (download_file ⟨Except.error "connection refused", Except.ok 200, [Ev.chunk 4]⟩
      "a.bin" 1 false [] ⟨none, false⟩).1 = Except.error "connection refused" ∧
    (download_file ⟨Except.error "connection refused", Except.ok 200, [Ev.chunk 4]⟩
      "a.bin" 1 false [] ⟨none, false⟩).2.2.2.getCalled = false :=
  ⟨rfl, rfl⟩

/-- C6 (amended): only a missing/unparseable `content-length` on a
*successful* HEAD degrades to an unknown-size download — the record is
inserted with `total = 0` and the GET is still issued. A HEAD transport
failure instead aborts `download_file` with that error: no GET is sent, no
record is inserted, table and filesystem are left untouched. -/
theorem C6_head_failure (env : Env) (save : String) (gid : Int) (resume : Bool)
    (t : Table) (fs : FileSt) :
    (∀ e, env.headResult = Except.error e →
      (download_file env save gid resume t fs).1 = Except.error e ∧
      (download_file env save gid resume t fs).2.1 = t ∧
      (download_file env save gid resume t fs).2.2.1 = fs ∧
      (download_file env save gid resume t fs).2.2.2.getCalled = false) ∧
    (env.headResult = Except.ok none →
      (download_file env save gid resume t fs).2.2.2.getCalled = true ∧
      ∀ e', env.getResult = Except.error e' →
        ∃ p, tableGet (download_file env save gid resume t fs).2.1 gid = some p ∧
          p.total = 0) := by
  rcases env with ⟨hr, gr, evs⟩
  constructor
  · intro e he
    simp only at he
    subst he
    exact ⟨rfl, rfl, rfl, rfl⟩
  · intro hok
    simp only at hok
    subst hok
    constructor
    · cases gr with
      | error e => rfl
      | ok s =>
        simp only [download_file]
        split
        · rfl
        · rfl
    · intro e' he'
      simp only at he'
      subst he'
      exact ⟨_, tableGet_insert t gid _, rfl⟩

/-- C6 witness: a failed HEAD (transport error) aborts with no GET, while a
HEAD that succeeds without a content-length proceeds to the GET with
`total = 0` in the record. -/
theorem C6_witness :
    ((download_file ⟨Except.error "dns failure", Except.ok 200, []⟩ "a.bin" 1 false []
       ⟨none, false⟩).1 = Except.error "dns failure" ∧
     (download_file ⟨Except.error "dns failure", Except.ok 200, []⟩ "a.bin" 1 false []
       ⟨none, false⟩).2.1 = [] ∧
     (download_file ⟨Except.error "dns failure", Except.ok 200, []⟩ "a.bin" 1 false []
       ⟨none, false⟩).2.2.1 = (⟨none, false⟩ : FileSt) ∧
     (download_file ⟨Except.error "dns failure", Except.ok 200, []⟩ "a.bin" 1 false []
       ⟨none, false⟩).2.2.2.getCalled = false) ∧
    ((download_file ⟨Except.ok none, Except.error "reset", []⟩ "b.bin" 2 false []
       ⟨none, false⟩).2.2.2.getCalled = true ∧
     ∃ p, tableGet (download_file ⟨Except.ok none, Except.error "reset", []⟩ "b.bin" 2
       false [] ⟨none, false⟩).2.1 2 = some p ∧ p.total = 0) :=
  ⟨(C6_head_failure ⟨Except.error "dns failure", Except.ok 200, []⟩ "a.bin" 1 false []
      ⟨none, false⟩).1 "dns failure" rfl,
   ⟨((C6_head_failure ⟨Except.ok none, Except.error "reset", []⟩ "b.bin" 2 false []
      ⟨none, false⟩).2 rfl).1,
    ((C6_head_failure ⟨Except.ok none, Except.error "reset", []⟩ "b.bin" 2 false []
      ⟨none, false⟩).2 rfl).2 "reset" rfl⟩⟩

lemma lastDotIdx_none : ∀ (l : List Char), '.' ∉ l → lastDotIdx l = none := by
  intro l
  induction l with
  | nil => intro _; rfl
  | cons c cs ih =>
    intro h
    have hcs : lastDotIdx cs = none := ih (fun hm => h (List.mem_cons_of_mem _ hm))
    have hc : ¬ (c = '.') := fun hc => h (by rw [hc]; exact List.mem_cons_self _ _)
    simp only [lastDotIdx, hcs, if_neg hc]

lemma lastDotIdx_append (l1 l2 : List Char) (h2 : '.' ∉ l2) :
    lastDotIdx (l1 ++ '.' :: l2) = some l1.length := by
  induction l1 with
  | nil => simp [lastDotIdx, lastDotIdx_none l2 h2]
  | cons c cs ih => simp [lastDotIdx, ih]

lemma asString_toList (s : String) : s.toList.asString = s := rfl

/-- C7 counterexample: for destination file name "setup.exe" the staging
file is "setup.part" — `with_extension("part")` replaces the existing
".exe" extension — not "setup.exe" + ".part" as the claim requires. -/
theorem C7_counterexample :
    (download_file ⟨Except.ok none, Except.ok 200, []⟩ "setup.exe" 1 false []
      ⟨none, false⟩).2.2.2.tempName = "setup.part" ∧
    "setup.part" ≠ "setup.exe" ++ ".part" :=
  ⟨rfl, by decide⟩

/-- C7 (amended): the staging path is the destination with its extension
*replaced* by "part" (Rust `Path::with_extension`): for a file name
`stem.ext` (nonempty dot-free stem, dot-free ext) the staging name is
`stem ++ ".part"`; only for a dot-free file name is it
`destination ++ ".part"`. -/
theorem C7_staging_name :
    (∀ f : String, '.' ∉ f.toList → stagingName f = f ++ ".part") ∧
    (∀ stem ext : String, stem.toList ≠ [] → '.' ∉ stem.toList → '.' ∉ ext.toList →
      stagingName (stem ++ "." ++ ext) = stem ++ ".part") := by
  have hdotpart : ∀ g : String, g ++ "." ++ "part" = g ++ ".part" := by
    intro g
    rw [String.append_assoc]
    rfl
  constructor
  · intro f hf
    rw [stagingName, rustWithExtension, lastDotIdx_none _ hf]
    exact hdotpart f
  · intro stem ext hne hstem hext
    have htl : (stem ++ "." ++ ext).toList = stem.toList ++ '.' :: ext.toList := by
      simp only [String.toList, String.data_append, List.append_assoc]
      rfl
    have hlen : 1 ≤ stem.toList.length := List.length_pos.mpr hne
    rw [stagingName, rustWithExtension, htl, lastDotIdx_append _ _ hext]
    show (if 1 ≤ stem.toList.length
        then (List.take stem.toList.length (stem.toList ++ '.' :: ext.toList)).asString
          ++ "." ++ "part"
        else (stem ++ "." ++ ext) ++ "." ++ "part") = stem ++ ".part"
    rw [if_pos hlen, List.take_left, asString_toList]
    exact hdotpart stem

/-- C7 witness: "setup" + "exe" instantiates the extension-replacement case,
and dot-free "archive" instantiates the append case. -/
theorem C7_witness :
    stagingName "archive" = "archive" ++ ".part" ∧
    stagingName ("setup" ++ "." ++ "exe") = "setup" ++ ".part" :=
  ⟨C7_staging_name.1 "archive" (by decide),
   C7_staging_name.2 "setup" "exe" (by decide) (by decide) (by decide)⟩

lemma download_file_loop (cl : Option Nat) (s : Nat) (evs : List Ev) (save : String)
    (gid : Int) (resume : Bool) (t : Table) (fs : FileSt)
    (hcond : ¬ (¬ (is_success s = true) ∧ s ≠ 206)) :
    ∃ d0 t1 fs1 rec,
      download_file ⟨Except.ok cl, Except.ok s, evs⟩ save gid resume t fs =
        (let r := runLoop gid (cl.getD 0) evs d0 t1 fs1
         (r.1, r.2.1, r.2.2.1,
          { tempName := stagingName save, headCalled := true, getCalled := true,
            rangeHeader := if 0 < d0 then some d0 else none, startOffset := d0,
            openedAppend := some (decide (0 < d0)), stagingAtOpen := fs1.stagingSize,
            leftover := r.2.2.2 })) ∧
      tableGet t1 gid = some rec ∧ rec.status = DownloadStatus.Downloading ∧
      rec.total = cl.getD 0 ∧ rec.percentage = pct d0 (cl.getD 0) ∧
      fs1.stagingSize.isSome = true ∧ fs1.finalExists = fs.finalExists := by
  refine ⟨(match fs.stagingSize with
      | some sz => if resume ∧ MINIMUM_RESUME_SIZE ≤ sz then sz else 0
      | none => 0),
    tableInsert t gid
      { game_id := gid, file_name := save,
        downloaded := (match fs.stagingSize with
          | some sz => if resume ∧ MINIMUM_RESUME_SIZE ≤ sz then sz else 0
          | none => 0),
        total := cl.getD 0,
        percentage := pct (match fs.stagingSize with
          | some sz => if resume ∧ MINIMUM_RESUME_SIZE ≤ sz then sz else 0
          | none => 0) (cl.getD 0),
        status := DownloadStatus.Downloading, error := none },
    (if 0 < (match fs.stagingSize with
        | some sz => if resume ∧ MINIMUM_RESUME_SIZE ≤ sz then sz else 0
        | none => 0) then fs else { fs with stagingSize := some 0 }),
    _, download_file_accept cl s evs save gid resume t fs hcond,
    tableGet_insert t gid _, rfl, rfl, rfl, ?_, ?_⟩
  · rcases fs with ⟨ss, fe⟩
    cases ss with
    | none => rfl
    | some sz =>
      by_cases hpos : 0 < (if resume ∧ MINIMUM_RESUME_SIZE ≤ sz then sz else 0)
      · simp only [if_pos hpos]
        rfl
      · simp only [if_neg hpos]
        rfl
  · rcases fs with ⟨ss, fe⟩
    by_cases hpos : 0 < (match (⟨ss, fe⟩ : FileSt).stagingSize with
        | some sz => if resume ∧ MINIMUM_RESUME_SIZE ≤ sz then sz else 0
        | none => 0)
    · rw [if_pos hpos]
    · rw [if_neg hpos]

lemma runLoop_cancel_chunk (gid : Int) (total : Nat) (pre post : List Ev) (sz : Nat)
    (d : Nat) (t : Table) (fs : FileSt) (p : DownloadProgress)
    (hpre : ∀ e ∈ pre, quietEv e = true)
    (hg : tableGet t gid = some p) (hc : p.status ≠ DownloadStatus.Cancelled)
    (hfs : fs.stagingSize.isSome = true) :
    (runLoop gid total (pre ++ Ev.cancel :: Ev.chunk sz :: post) d t fs).1 =
      Except.error "Download cancelled" ∧
    (runLoop gid total (pre ++ Ev.cancel :: Ev.chunk sz :: post) d t
      fs).2.2.1.stagingSize.isSome = true ∧
    (runLoop gid total (pre ++ Ev.cancel :: Ev.chunk sz :: post) d t fs).2.2.1.finalExists =
      fs.finalExists ∧
    (tableGet (runLoop gid total (pre ++ Ev.cancel :: Ev.chunk sz :: post) d t fs).2.1
      gid).map (fun q => q.status) = some DownloadStatus.Cancelled ∧
    (runLoop gid total (pre ++ Ev.cancel :: Ev.chunk sz :: post) d t fs).2.2.2 = post := by
  obtain ⟨d', t', fs', p', hrun, hget, hstat, hss, hfe⟩ :=
    runSteps_quiet gid total pre d t fs p hpre hg hc hfs
  have hloop := runSteps_append gid total pre (Ev.cancel :: Ev.chunk sz :: post) d t fs
    (d', t', fs') hrun
  have hcan : runLoop gid total (Ev.cancel :: Ev.chunk sz :: post) d' t' fs' =
      runLoop gid total (Ev.chunk sz :: post) d'
        (tableUpdate t' gid (fun q => { q with status := DownloadStatus.Cancelled }))
        fs' := by
    simp only [runLoop]
  have hget2 : tableGet (tableUpdate t' gid
      (fun q => { q with status := DownloadStatus.Cancelled })) gid =
      some { p' with status := DownloadStatus.Cancelled } := by
    rw [tableGet_update, hget]
    rfl
  have hchunk := @runLoop_chunk_some gid total _ _ hget2 sz post d' fs'
  rw [if_pos rfl] at hchunk
  rw [hloop, hcan, hchunk]
  refine ⟨rfl, rfl, hfe, ?_, rfl⟩
  rw [tableGet_update, hget2]
  rfl

/-- C1 counterexample: `cancel_download` lands after the last chunk but
before the stream-end is observed ([chunk 5, cancel] with the stream then
ending): the transfer still renames the staging file and transitions the
record to Completed, returning success — contradicting "stops within one
further chunk, returns a cancellation failure, staging left in place, never
Completed". -/
theorem C1_counterexample :
    (download_file ⟨Except.ok none, Except.ok 200, [Ev.chunk 5, Ev.cancel]⟩ "g.bin" 7
      false [] ⟨none, false⟩).1 = Except.ok () ∧
    (tableGet (download_file ⟨Except.ok none, Except.ok 200, [Ev.chunk 5, Ev.cancel]⟩
      "g.bin" 7 false [] ⟨none, false⟩).2.1 7).map (fun p => p.status) =
      some DownloadStatus.Completed ∧
    (download_file ⟨Except.ok none, Except.ok 200, [Ev.chunk 5, Ev.cancel]⟩ "g.bin" 7
      false [] ⟨none, false⟩).2.2.1.stagingSize = none ∧
    (download_file ⟨Except.ok none, Except.ok 200, [Ev.chunk 5, Ev.cancel]⟩ "g.bin" 7
      false [] ⟨none, false⟩).2.2.1.finalExists = true :=
  ⟨rfl, rfl, rfl, rfl⟩

/-- C1 (amended): if the shared record's status is set to Cancelled while
`download_file` is streaming and at least one further chunk then arrives
(with no stream error or intervening pause/cancel table write before it),
the transfer stops at that very chunk — the remaining stream is left
unconsumed — returning the cancellation failure "Download cancelled"; the
staging file stays in place (not deleted), the final file is not created by
rename, and the record reads Cancelled, not Completed. (If the stream ends
before a further chunk arrives, the transfer instead completes — see the
counterexample; and a later `pause_download` would overwrite the Cancelled
status.) -/
theorem C1_cancel_mid_stream (env : Env) (save : String) (gid : Int) (resume : Bool)
    (t : Table) (fs : FileSt) (cl : Option Nat) (s : Nat) (pre post : List Ev) (sz : Nat)
    (hh : env.headResult = Except.ok cl) (hg : env.getResult = Except.ok s)
    (hs : is_success s = true ∨ s = 206)
    (hev : env.events = pre ++ Ev.cancel :: Ev.chunk sz :: post)
    (hpre : ∀ e ∈ pre, quietEv e = true) :
    (download_file env save gid resume t fs).1 = Except.error "Download cancelled" ∧
    (download_file env save gid resume t fs).2.2.1.stagingSize.isSome = true ∧
    (download_file env save gid resume t fs).2.2.1.finalExists = fs.finalExists ∧
    (tableGet (download_file env save gid resume t fs).2.1 gid).map
      (fun q => q.status) = some DownloadStatus.Cancelled ∧
    (download_file env save gid resume t fs).2.2.2.leftover = post := by
  rcases env with ⟨hr, gr, evs⟩
  simp only at hh hg hev
  subst hh
  subst hg
  subst hev
  have hcond : ¬ (¬ (is_success s = true) ∧ s ≠ 206) := by
    rcases hs with hs | hs
    · exact fun hx => hx.1 hs
    · exact fun hx => hx.2 hs
  obtain ⟨d0, t1, fs1, rec, heq, hget, hstat, htot, hpct, hss, hfe⟩ :=
    download_file_loop cl s _ save gid resume t fs hcond
  rw [heq]
  have key := runLoop_cancel_chunk gid (cl.getD 0) pre post sz d0 t1 fs1 rec hpre hget
    (by rw [hstat]; simp) hss
  exact ⟨key.1, key.2.1, key.2.2.1.trans hfe, key.2.2.2.1, key.2.2.2.2⟩

/-- C1 witness: a concrete run where a cancel is followed by one more chunk;
the transfer aborts at that chunk with the stream suffix unconsumed. -/
theorem C1_witness :
    (download_file ⟨Except.ok none, Except.ok 200,
       [Ev.chunk 3, Ev.cancel, Ev.chunk 2, Ev.pause]⟩ "g.bin" 7 false []
       ⟨none, false⟩).1 = Except.error "Download cancelled" ∧
    (download_file ⟨Except.ok none, Except.ok 200,
       [Ev.chunk 3, Ev.cancel, Ev.chunk 2, Ev.pause]⟩ "g.bin" 7 false []
       ⟨none, false⟩).2.2.1.stagingSize.isSome = true ∧
    (download_file ⟨Except.ok none, Except.ok 200,
       [Ev.chunk 3, Ev.cancel, Ev.chunk 2, Ev.pause]⟩ "g.bin" 7 false []
       ⟨none, false⟩).2.2.1.finalExists = false ∧
    (tableGet (download_file ⟨Except.ok none, Except.ok 200,
       [Ev.chunk 3, Ev.cancel, Ev.chunk 2, Ev.pause]⟩ "g.bin" 7 false []
       ⟨none, false⟩).2.1 7).map (fun q => q.status) = some DownloadStatus.Cancelled ∧
    (download_file ⟨Except.ok none, Except.ok 200,
       [Ev.chunk 3, Ev.cancel, Ev.chunk 2, Ev.pause]⟩ "g.bin" 7 false []
       ⟨none, false⟩).2.2.2.leftover = [Ev.pause] :=
  C1_cancel_mid_stream ⟨Except.ok none, Except.ok 200,
    [Ev.chunk 3, Ev.cancel, Ev.chunk 2, Ev.pause]⟩ "g.bin" 7 false [] ⟨none, false⟩
    none 200 [Ev.chunk 3] [Ev.pause] 2 rfl rfl (Or.inl rfl) rfl (by decide)

lemma runLoop_chunks_final (gid : Int) (evs : List Ev) (d : Nat) (t : Table)
    (fs : FileSt) (p : DownloadProgress)
    (hev : ∀ e ∈ evs, ∃ n, e = Ev.chunk n)
    (hg : tableGet t gid = some p) (ht : p.total = 0) (hp : p.percentage = 0)
    (hst : p.status = DownloadStatus.Downloading) :
    (runLoop gid 0 evs d t fs).1 = Except.ok () ∧
    (tableGet (runLoop gid 0 evs d t fs).2.1 gid).map
      (fun q => (q.status, q.total, q.percentage)) =
      some (DownloadStatus.Completed, 0, (100 : Rat)) := by
  obtain ⟨d', t', fs', p', hrun, hget, htot, hpct, hstat⟩ :=
    runSteps_chunks gid evs d t fs p hev hg ht hp hst
  have hloop := runSteps_append gid 0 evs [] d t fs (d', t', fs') hrun
  rw [List.append_nil] at hloop
  rw [hloop]
  simp only [runLoop]
  refine ⟨trivial, ?_⟩
  simp [tableGet_update, hget, htot]

/-- C5 counterexample: with content-length absent (`total = 0`) the record
holds percentage 0.0 while streaming, but on completion the code sets
`percentage = 100.0` — so "fraction_complete stays 0.0 from start to
terminal state" fails at the terminal state. -/
theorem C5_counterexample :
    (download_file ⟨Except.ok none, Except.ok 200, [Ev.chunk 7]⟩ "u.bin" 3 false []
      ⟨none, false⟩).1 = Except.ok () ∧
    (tableGet (download_file ⟨Except.ok none, Except.ok 200, [Ev.chunk 7]⟩ "u.bin" 3
      false [] ⟨none, false⟩).2.1 3).map
        (fun p => (p.status, p.total, p.percentage)) =
      some (DownloadStatus.Completed, 0, (100 : Rat)) ∧
    (100 : Rat) ≠ 0 :=
  ⟨rfl, rfl, by norm_num⟩

/-- C5 (amended): when the HEAD response carries no (parseable)
content-length, the record is created with `total = 0` and
`percentage = pct d0 0 = 0` (the `pct` guard takes its 0 branch, so the
percentage is never computed by division — no NaN is possible), every
chunk-only streaming step preserves `total = 0`, `percentage = 0` and status
Downloading, and when the stream ends the transfer still reaches Completed
with `total = 0` — at which point the code sets `percentage` to the literal
100.0 (not 0.0, and still not by division). -/
theorem C5_unknown_size (env : Env) (save : String) (gid : Int) (resume : Bool)
    (t : Table) (fs : FileSt) (s : Nat)
    (hh : env.headResult = Except.ok none) (hg : env.getResult = Except.ok s)
    (hs : is_success s = true)
    (hev : ∀ e ∈ env.events, ∃ n, e = Ev.chunk n) :
    (∀ (evs : List Ev) (d : Nat) (t0 : Table) (fs0 : FileSt) (p : DownloadProgress),
      (∀ e ∈ evs, ∃ n, e = Ev.chunk n) →
      tableGet t0 gid = some p → p.total = 0 → p.percentage = 0 →
      p.status = DownloadStatus.Downloading →
      ∃ d' t' fs' p',
        runSteps gid 0 evs d t0 fs0 = some (d', t', fs') ∧
        tableGet t' gid = some p' ∧ p'.total = 0 ∧ p'.percentage = 0 ∧
        p'.status = DownloadStatus.Downloading) ∧
    (∃ d0 t1 fs1 rec,
      download_file env save gid resume t fs =
        (let r := runLoop gid 0 env.events d0 t1 fs1
         (r.1, r.2.1, r.2.2.1,
          { tempName := stagingName save, headCalled := true, getCalled := true,
            rangeHeader := if 0 < d0 then some d0 else none, startOffset := d0,
            openedAppend := some (decide (0 < d0)), stagingAtOpen := fs1.stagingSize,
            leftover := r.2.2.2 })) ∧
      tableGet t1 gid = some rec ∧ rec.total = 0 ∧ rec.percentage = pct d0 0 ∧
      rec.status = DownloadStatus.Downloading) ∧
    ((download_file env save gid resume t fs).1 = Except.ok () ∧
      (tableGet (download_file env save gid resume t fs).2.1 gid).map
        (fun p => (p.status, p.total, p.percentage)) =
      some (DownloadStatus.Completed, 0, (100 : Rat))) := by
  rcases env with ⟨hr, gr, evs⟩
  simp only at hh hg hev
  subst hh
  subst hg
  have hcond : ¬ (¬ (is_success s = true) ∧ s ≠ 206) := fun hx => hx.1 hs
  obtain ⟨d0, t1, fs1, rec, heq, hget, hstat, htot, hpct, hss, hfe⟩ :=
    download_file_loop none s evs save gid resume t fs hcond
  refine ⟨runSteps_chunks gid, ⟨d0, t1, fs1, rec, heq, hget, htot, hpct, hstat⟩, ?_⟩
  rw [heq]
  have hpct0 : rec.percentage = 0 := by
    rw [hpct]
    simp [pct]
  have key := runLoop_chunks_final gid evs d0 t1 fs1 rec hev hget htot hpct0 hstat
  exact ⟨key.1, key.2⟩

/-- C5 witness: a concrete unknown-size transfer with two chunks — the
intermediate state after the first chunk still shows total 0, percentage 0,
Downloading, and the full run ends Completed with percentage 100. -/
theorem C5_witness :
    (∃ d' t' fs' p',
      runSteps 3 0 [Ev.chunk 4]
        0
        [(3, { game_id := 3, file_name := "u.bin", downloaded := 0, total := 0,
               percentage := 0, status := DownloadStatus.Downloading, error := none })]
        ⟨some 0, false⟩ = some (d', t', fs') ∧
      tableGet t' 3 = some p' ∧ p'.total = 0 ∧ p'.percentage = 0 ∧
      p'.status = DownloadStatus.Downloading) ∧
    ((download_file ⟨Except.ok none, Except.ok 200, [Ev.chunk 4, Ev.chunk 6]⟩ "u.bin" 3
        false [] ⟨none, false⟩).1 = Except.ok () ∧
      (tableGet (download_file ⟨Except.ok none, Except.ok 200, [Ev.chunk 4, Ev.chunk 6]⟩
        "u.bin" 3 false [] ⟨none, false⟩).2.1 3).map
          (fun p => (p.status, p.total, p.percentage)) =
        some (DownloadStatus.Completed, 0, (100 : Rat))) :=
  ⟨(C5_unknown_size ⟨Except.ok none, Except.ok 200, [Ev.chunk 4, Ev.chunk 6]⟩ "u.bin" 3
      false [] ⟨none, false⟩ 200 rfl rfl rfl
      (by intro e he; fin_cases he; exact ⟨_, rfl⟩; exact ⟨_, rfl⟩)).1
    [Ev.chunk 4] 0
    [(3, { game_id := 3, file_name := "u.bin", downloaded := 0, total := 0,
           percentage := 0, status := DownloadStatus.Downloading, error := none })]
    ⟨some 0, false⟩
    { game_id := 3, file_name := "u.bin", downloaded := 0, total := 0,
      percentage := 0, status := DownloadStatus.Downloading, error := none }
    (by intro e he; fin_cases he; exact ⟨_, rfl⟩) rfl rfl rfl rfl,
   (C5_unknown_size ⟨Except.ok none, Except.ok 200, [Ev.chunk 4, Ev.chunk 6]⟩ "u.bin" 3
      false [] ⟨none, false⟩ 200 rfl rfl rfl
      (by intro e he; fin_cases he; exact ⟨_, rfl⟩; exact ⟨_, rfl⟩)).2.2⟩

/-- C3: evaluation at the failing input. A stream error ("connection reset")
mid-transfer makes `download_file` return the error, but the Progress Record
is left with status Downloading and `error = None`: no code path in
download.rs writes `Failed` or the `error` field, the spawned task in
`start_download` discards the `Err` (`let _ = ...`), and
`download_and_install` polls for a "Failed" status that can never appear. -/
theorem C3_error_not_recorded :
    (download_file ⟨Except.ok none, Except.ok 200,
      [Ev.chunk 10, Ev.chunkErr "connection reset"]⟩ "e.bin" 5 false []
      ⟨none, false⟩).1 = Except.error "connection reset" ∧
    (tableGet (download_file ⟨Except.ok none, Except.ok 200,
      [Ev.chunk 10, Ev.chunkErr "connection reset"]⟩ "e.bin" 5 false []
      ⟨none, false⟩).2.1 5).map (fun p => (p.status, p.error)) =
      some (DownloadStatus.Downloading, (none : Option String)) :=
  ⟨rfl, rfl⟩

/-- C10: every record ever stored in or mutated inside the active-downloads
table has `error = None`: `download_file` inserts the initial record with
`error: None` and no operation (per-chunk updates, completion,
`pause_download`, `cancel_download`, `start_download`) ever writes the error
field, so `get_progress` and `get_active_downloads` can never return a
record whose error is `Some`. -/
theorem C10_error_always_none (env : Env) (save : String) (gid gidq : Int)
    (resume : Bool) (t : Table) (fs : FileSt) (files : List ReqFile)
    (h : errFree t) :
    errFree (download_file env save gid resume t fs).2.1 ∧
    errFree (pause_download t gid) ∧
    errFree (cancel_download t gid) ∧
    errFree (start_download gid files t).2.1 ∧
    (∀ p, get_progress t gidq = some p → p.error = none) ∧
    (∀ p ∈ get_active_downloads t, p.error = none) := by
  refine ⟨errFree_download env save gid resume t fs h, ?_, ?_,
    errFree_start gid files t h, ?_, ?_⟩
  · unfold pause_download
    refine errFree_update h ?_ gid
    intro p hp
    exact hp
  · unfold cancel_download
    refine errFree_update h ?_ gid
    intro p hp
    exact hp
  · intro p hp
    exact errFree_get h hp
  · intro p hp
    rcases List.mem_map.mp hp with ⟨kv, hkv, rfl⟩
    exact h kv hkv

/-- C10 witness: the invariant instantiated at an empty table, a concrete
streaming run with a pause, and a concrete one-file request. -/
theorem C10_witness :
    errFree (download_file ⟨Except.ok none, Except.ok 200, [Ev.chunk 2, Ev.pause]⟩
      "w.bin" 4 false [] ⟨none, false⟩).2.1 ∧
    errFree (pause_download [] 4) ∧
    errFree (cancel_download [] 4) ∧
    errFree (start_download 4
      [⟨"w.bin", ⟨Except.ok none, Except.ok 200, []⟩, ⟨none, false⟩⟩] []).2.1 ∧
    (∀ p, get_progress ([] : Table) 4 = some p → p.error = none) ∧
    (∀ p ∈ get_active_downloads ([] : Table), p.error = none) :=
  C10_error_always_none ⟨Except.ok none, Except.ok 200, [Ev.chunk 2, Ev.pause]⟩
    "w.bin" 4 4 false [] ⟨none, false⟩
    [⟨"w.bin", ⟨Except.ok none, Except.ok 200, []⟩, ⟨none, false⟩⟩] (by decide)

lemma char_toNat_ofNat (n : Nat) (h : n.isValidChar) : (Char.ofNat n).toNat = n := by
  unfold Char.ofNat
  rw [dif_pos h]
  rfl

lemma map_fix_char (f : Char → Char) :
    ∀ (l : List Char), (∀ c ∈ l, f c = c) → l.map f = l := by
  intro l
  induction l with
  | nil => intro _; rfl
  | cons c cs ih =>
    intro h
    simp only [List.map_cons]
    rw [h c (List.mem_cons_self _ _), ih (fun x hx => h x (List.mem_cons_of_mem _ hx))]

lemma hexDigit_lower (n : Nat) : asciiToLower (hexDigit n) = hexDigit n := by
  unfold hexDigit asciiToLower
  by_cases h1 : n < 10
  · rw [if_pos h1, char_toNat_ofNat (48 + n) (by left; omega), if_neg (by omega)]
  · rw [if_neg h1]
    by_cases h2 : n < 16
    · rw [if_pos h2, char_toNat_ofNat (87 + n) (by left; omega), if_neg (by omega)]
    · rw [if_neg h2]
      decide

lemma md5hex_chars (msg : List Nat) : ∀ c ∈ (md5hex msg).toList, asciiToLower c = c := by
  intro c hc
  have hc' : c ∈ ((wordLEBytes ((chunk64 (md5pad msg)).foldl md5block md5init).1 ++
      wordLEBytes ((chunk64 (md5pad msg)).foldl md5block md5init).2.1 ++
      wordLEBytes ((chunk64 (md5pad msg)).foldl md5block md5init).2.2.1 ++
      wordLEBytes ((chunk64 (md5pad msg)).foldl md5block md5init).2.2.2).map
        byteHexChars).flatten := hc
  rcases List.mem_flatten.mp hc' with ⟨bl, hbl, hcbl⟩
  rcases List.mem_map.mp hbl with ⟨b, hb, rfl⟩
  simp only [byteHexChars, List.mem_cons, List.not_mem_nil, or_false] at hcbl
  rcases hcbl with rfl | rfl
  · exact hexDigit_lower _
  · exact hexDigit_lower _

lemma md5hex_lower_fix (msg : List Nat) : rustToLowercase (md5hex msg) = md5hex msg := by
  unfold rustToLowercase
  rw [map_fix_char asciiToLower _ (md5hex_chars msg)]
  rfl

lemma lower_upper_char (c : Char) : asciiToLower (asciiToUpper c) = asciiToLower c := by
  unfold asciiToLower asciiToUpper
  by_cases h : 97 ≤ c.toNat ∧ c.toNat ≤ 122
  · rw [if_pos h]
    have hv : (c.toNat - 32).isValidChar := by
      left
      omega
    have ht : (Char.ofNat (c.toNat - 32)).toNat = c.toNat - 32 := char_toNat_ofNat _ hv
    have hrange : 65 ≤ (Char.ofNat (c.toNat - 32)).toNat ∧
        (Char.ofNat (c.toNat - 32)).toNat ≤ 90 := by
      rw [ht]
      omega
    rw [if_pos hrange, if_neg (by omega)]
    rw [ht]
    have hback : c.toNat - 32 + 32 = c.toNat := by omega
    rw [hback]
    have hofn : Char.ofNat c.toNat = c := by
      apply Char.ext
      have hvc : c.toNat.isValidChar := c.valid
      exact UInt32.ext (char_toNat_ofNat c.toNat hvc)
    rw [hofn]
  · rw [if_neg h]

/-- C9: `verify_checksum` computes the MD5 digest of the file and compares
it to the expected string case-insensitively: it returns `Ok(true)` iff the
lowercase hex MD5 of the file's contents equals the lowercase form of the
expected string, and uppercasing the expected string never changes the
result. In the embedding `verify_checksum` is a pure function of the file
bytes and the expected string alone — it takes no `Table` and cannot read or
write the Progress Table. -/
theorem C9_verify_checksum (bytes : List Nat) (expected : String) :
    (verify_checksum (some bytes) expected = Except.ok true ↔
      md5hex bytes = rustToLowercase expected) ∧
    verify_checksum (some bytes) (rustToUppercase expected) =
      verify_checksum (some bytes) expected := by
  constructor
  · unfold verify_checksum calculate_md5
    simp only [md5hex_lower_fix]
    constructor
    · intro h
      have hb : (md5hex bytes == rustToLowercase expected) = true := by
        injection h
      exact eq_of_beq hb
    · intro h
      rw [h]
      simp
  · unfold verify_checksum calculate_md5
    have hl : rustToLowercase (rustToUppercase expected) = rustToLowercase expected := by
      unfold rustToLowercase rustToUppercase
      simp only [String.toList]
      rw [List.map_map]
      congr 1
      apply List.map_congr_left
      intro c _
      exact lower_upper_char c
    rw [hl]

set_option maxRecDepth 20000 in
/-- C9 witness: the empty file verifies against the RFC 1321 empty-string
digest given in uppercase — the case-insensitive comparison accepts it. -/
theorem C9_witness :
    verify_checksum (some []) "D41D8CD98F00B204E9800998ECF8427E" = Except.ok true :=
  (C9_verify_checksum [] "D41D8CD98F00B204E9800998ECF8427E").1.mpr (by rfl)

end Galaxi
